import Mathlib

set_option linter.unusedVariables false

/-!
Verification of the PDF page service (split-pdf / convert-to-images HTTP
handlers) against its design specification.

The repository contains several near-identical variants of a small HTTP
service.  Each request handler is embedded here as a pure Lean function:
the JSON request body fields are explicit arguments, the external PDF
engines (pdf-lib, poppler pdfinfo / pdfseparate / pdftoppm, ImageMagick,
pdf2img) are either modelled by small functions reflecting their
documented behaviour or passed in as parameters, and each handler returns
the HTTP response together with a trace of its externally observable
effects (engine invocations, temp-file writes and removals) and, where
the variant touches the file system, the final file-system state.

Base64 payloads are carried as the decoded values themselves: Buffer
base64 encoding is a bijection between byte strings and base64 strings,
so a response field holding the base64 of a document is modelled by the
document value.
-/

namespace PdfSplitter

/-! ## JavaScript value and number semantics -/

/-- A JavaScript value as it can appear in a JSON request body field.
NaN never appears as a stored field value in the requests of interest;
it arises only from parseInt and is modelled by Option (none = NaN). -/
inductive JsVal where
  | undef
  | null
  | bool (b : Bool)
  | num (n : Int)
  | str (s : String)
deriving DecidableEq, Repr

/-- JavaScript truthiness: undefined, null, false, 0 and the empty string
are falsy; everything else here is truthy. -/
def JsVal.truthy : JsVal → Bool
  | .undef => false
  | .null => false
  | .bool b => b
  | .num n => n != 0
  | .str s => s != ""

/-- The longest leading run of decimal digits. -/
def takeDigits : List Char → List Char
  | [] => []
  | c :: cs => if c.isDigit then c :: takeDigits cs else []

/-- Value of a digit list, most significant first. -/
def digitsToNat (ds : List Char) : Nat :=
  ds.foldl (fun acc c => acc * 10 + (c.toNat - 48)) 0

/-- Leading decimal-integer parse of a character list: none when there is
no leading digit (JavaScript NaN). -/
def parseDigits (cs : List Char) : Option Int :=
  match takeDigits cs with
  | [] => none
  | ds => some (digitsToNat ds)

/-- JavaScript parseInt on a string: skip leading spaces, optional sign,
then the longest run of decimal digits, ignoring any trailing characters;
NaN (none) when no digit is found.  The radix-16 path taken by parseInt
for strings starting with 0x is not modelled; no claim exercises it. -/
def parseIntStr (s : String) : Option Int :=
  match s.data.dropWhile (fun c => c = ' ') with
  | '-' :: rest => (parseDigits rest).map (fun n => -n)
  | '+' :: rest => parseDigits rest
  | cs => parseDigits cs

/-- JavaScript parseInt applied to an arbitrary value: the argument is
first converted to a string, so booleans, null and undefined all parse to
NaN (none), and a number parses to itself (the handlers only ever receive
integers here). -/
def jsParseInt : JsVal → Option Int
  | .num n => some n
  | .str s => parseIntStr s
  | _ => none

/-- JavaScript comparison a < b where a may be NaN (none): every
comparison involving NaN is false. -/
def nanLt (a : Option Int) (b : Int) : Bool :=
  match a with
  | some x => decide (x < b)
  | none => false

/-- JavaScript comparison a >= b where a may be NaN (none). -/
def nanGe (a : Option Int) (b : Int) : Bool :=
  match a with
  | some x => decide (b ≤ x)
  | none => false

/-- JavaScript comparison a > b where a may be NaN (none). -/
def nanGt (a : Option Int) (b : Int) : Bool :=
  match a with
  | some x => decide (b < x)
  | none => false

/-! ## Documents, effects, responses -/

/-- A PDF document, modelled as the list of its pages; the page content
type α is abstract.  getPageCount is the length of the list. -/
structure PdfDoc (α : Type) where
  pages : List α
deriving DecidableEq, Repr

/-- Externally observable side effects of a request handler: calls into a
PDF engine (pdf-lib, poppler tools, pdf2img, ImageMagick) and temp-file
writes and removals. -/
inductive Ev where
  | engine (name : String)
  | fileWrite (path : String)
  | fileUnlink (path : String)
deriving DecidableEq, Repr

/-- Whether an event is an invocation of an external PDF engine. -/
def Ev.isEngine : Ev → Bool
  | .engine _ => true
  | _ => false

/-- Body of a split-pdf JSON response. -/
inductive SplitBody (α : Type) where
  | required
  | invalidPage (totalPages : Nat)
  | single (page : Int) (totalPages : Nat) (doc : PdfDoc α)
  | all (count : Nat) (pages : List (Nat × PdfDoc α))
  | failure (msg : String)
deriving DecidableEq, Repr

/-- Outcome of a split-pdf request: HTTP status, JSON body, effect trace. -/
structure SplitResult (α : Type) where
  status : Nat
  body : SplitBody α
  trace : List Ev
deriving DecidableEq, Repr

/-- Models pdf-lib page extraction: PDFDocument.create, copyPages of one
index, addPage.  pdf-lib getPage asserts 0 ≤ index ≤ pageCount - 1 and
throws a range error otherwise; a NaN index (none) fails the assertion as
well, since assertRange compares with >= and <= and NaN comparisons are
false. -/
def copyPage {α : Type} (doc : PdfDoc α) (idx : Option Int) :
    Except String (PdfDoc α) :=
  match idx with
  | none => .error "index out of range"
  | some i =>
    if h : 0 ≤ i ∧ i.toNat < doc.pages.length then
      .ok ⟨[doc.pages.get ⟨i.toNat, h.2⟩]⟩
    else .error "index out of range"

/-- The pdf-lib variant of POST /api/split-pdf (src/unnamed/part_001
lines 21-89; identical logic in src/unnamed/part_000 lines 43-83 and the
second documents of server.js and part_000).  loadResult is the outcome
of PDFDocument.load on the decoded request buffer: ok for a well-formed
document, error when the library throws. -/
def splitPdfLib {α : Type} (pdfField pageField : JsVal)
    (loadResult : Except String (PdfDoc α)) : SplitResult α :=
  if !pdfField.truthy then ⟨400, .required, []⟩
  else
    match loadResult with
    | .error e => ⟨500, .failure e, [.engine "PDFDocument.load"]⟩
    | .ok doc =>
      let loadEv : List Ev := [.engine "PDFDocument.load"]
      let pageCount := doc.pages.length
      if pageField.truthy then
        let pageNumber := jsParseInt pageField
        let pageIndex := pageNumber.map (fun x => x - 1)
        if nanLt pageIndex 0 || nanGe pageIndex (pageCount : Int) then
          ⟨400, .invalidPage pageCount, loadEv⟩
        else
          match copyPage doc pageIndex with
          | .error e => ⟨500, .failure e, loadEv ++ [.engine "copyPages"]⟩
          | .ok newDoc =>
            ⟨200, .single (pageNumber.getD 0) pageCount newDoc,
              loadEv ++ [.engine "copyPages"]⟩
      else
        ⟨200,
          .all pageCount (doc.pages.enum.map (fun p => (p.1 + 1, ⟨[p.2]⟩))),
          loadEv ++ doc.pages.map (fun _ => .engine "copyPages")⟩

/-! ## Strings, file names and the temp-directory file system

The poppler-based variants build temp-file names by template
interpolation of the request timestamp and page numbers, list the temp
directory, filter by prefix and suffix, sort, and parse page numbers back
out of file names with regular expressions.  Those operations are
embedded here over the character lists of the strings. -/

/-- The decimal digit character for d ≤ 9 (d ≥ 9 also maps to the last
digit, a case that never arises). -/
def digitChar (d : Nat) : Char :=
  match d with
  | 0 => '0' | 1 => '1' | 2 => '2' | 3 => '3' | 4 => '4'
  | 5 => '5' | 6 => '6' | 7 => '7' | 8 => '8' | _ => '9'

/-- Fuel-driven helper of natChars (structural recursion on the fuel, so
that concrete names reduce inside the kernel); the fuel never runs out
when it starts at n + 1. -/
def natCharsAux : Nat → Nat → List Char
  | 0, _ => []
  | fuel + 1, n =>
    if n < 10 then [digitChar n]
    else natCharsAux fuel (n / 10) ++ [digitChar (n % 10)]

/-- Decimal representation of a natural number as a character list;
models the JavaScript number-to-string conversion performed by template
interpolation. -/
def natChars (n : Nat) : List Char := natCharsAux (n + 1) n

/-- Decimal string of a natural number. -/
def natStr (n : Nat) : String := ⟨natChars n⟩

/-- Decimal string of an integer (template interpolation of a JS number
holding an integral value). -/
def intStr (i : Int) : String :=
  if i < 0 then "-" ++ natStr i.natAbs else natStr i.toNat

/-- String startsWith, on the character lists. -/
def strStarts (s p : String) : Bool := s.data.take p.data.length == p.data

/-- String endsWith, on the character lists. -/
def strEnds (s p : String) : Bool :=
  s.data.reverse.take p.data.length == p.data.reverse

/-- Lexicographic order on character lists by character code; this is the
default JavaScript Array.sort comparison on strings. -/
def lexLe : List Char → List Char → Bool
  | [], _ => true
  | _ :: _, [] => false
  | a :: as, b :: bs =>
    if a.toNat < b.toNat then true
    else if b.toNat < a.toNat then false
    else lexLe as bs

/-- Default JavaScript string comparison used by Array.sort with no
comparator. -/
def strLe (a b : String) : Bool := lexLe a.data b.data

/-- Insert into a sorted list; helper of sortLe. -/
def insertLe {σ : Type} (le : σ → σ → Bool) (x : σ) : List σ → List σ
  | [] => [x]
  | y :: ys => if le x y then x :: y :: ys else y :: insertLe le x ys

/-- Comparison sort; models JavaScript Array.sort, whose result is the
input reordered ascending with respect to the comparator. -/
def sortLe {σ : Type} (le : σ → σ → Bool) : List σ → List σ
  | [] => []
  | x :: xs => insertLe le x (sortLe le xs)

/-- Models the regular-expression matches of the shape used by the
handlers — a group of digits between a marker character and a final
extension, anchored at the end of the name: the maximal digit run
immediately before the extension, nonempty and preceded by the marker.
Used with marker and extension instantiated per variant. -/
def matchNumBefore (mark : Char) (ext : String) (s : String) : Option Nat :=
  if strEnds s ext then
    let rbase := s.data.reverse.drop ext.data.length
    let ds := rbase.takeWhile Char.isDigit
    match rbase.drop ds.length with
    | c :: _ => if ds ≠ [] ∧ c = mark then some (digitsToNat ds.reverse) else none
    | [] => none
  else none

/-- The temp directory, as an association of file names to contents. -/
abbrev Fs (β : Type) := List (String × β)

/-- fs.writeFile: append the file (names are fresh in every use here). -/
def fsWrite {β : Type} (fs : Fs β) (n : String) (c : β) : Fs β :=
  fs ++ [(n, c)]

/-- fs.unlink: drop the file. -/
def fsUnlink {β : Type} (fs : Fs β) (n : String) : Fs β :=
  fs.filter (fun e => e.1 != n)

/-- fs.readdir: the names, in creation order. -/
def fsNames {β : Type} (fs : Fs β) : List String := fs.map Prod.fst

/-- fs.readFile: the content, if present. -/
def fsRead {β : Type} (fs : Fs β) (n : String) : Option β := fs.lookup n

/-- Temp PDF written by the poppler variants. -/
def inputName (t : Nat) : String := "input_" ++ natStr t ++ ".pdf"

/-- Single-page output name of the poppler split variant. -/
def sepPageName (t : Nat) (p : Int) : String :=
  "output_" ++ natStr t ++ "_page" ++ intStr p ++ ".pdf"

/-- Output names produced by pdfseparate for the %d pattern of the
split-all path: output_t_1.pdf through output_t_N.pdf. -/
def sepNumName (t : Nat) (i : Nat) : String :=
  "output_" ++ natStr t ++ "_" ++ natStr i ++ ".pdf"

/-- Models pdfseparate -f p -l p followed by reading the produced file:
succeeds exactly when the buffer is a well-formed document and p is a
page of it, yielding that single page; a NaN page number is interpolated
into the command as the text NaN and makes the tool fail. -/
def pdfseparatePage {α : Type} (doc : Option (PdfDoc α)) (p : Option Int) :
    Except String (PdfDoc α) :=
  match doc, p with
  | some d, some i =>
    if h : 1 ≤ i ∧ i.toNat ≤ d.pages.length then
      .ok ⟨[d.pages.get ⟨i.toNat - 1, by omega⟩]⟩
    else .error "pdfseparate failed"
  | _, _ => .error "pdfseparate failed"

/-- Environment of the poppler split handler: the document denoted by the
written buffer (none when the bytes are not a well-formed PDF), and the
outcome of the pdfinfo call — on success, the capture of the regular
expression looking for the Pages line of its stdout. -/
structure PopplerEnv (α : Type) where
  doc : Option (PdfDoc α)
  info : Except String (Option Nat)

/-- The poppler variant of POST /api/split-pdf (src/server.js lines
23-99, duplicated in src/unnamed/part_001 lines 181-257).  t is the
request timestamp Date.now(); fs0 is the temp directory at entry (the
per-request view: concurrent requests are out of scope, so theorems take
fs0 = []). -/
def splitPoppler {α : Type} (pdfField pageField : JsVal) (t : Nat)
    (env : PopplerEnv α) (fs0 : Fs (Option (PdfDoc α))) :
    SplitResult α × Fs (Option (PdfDoc α)) :=
  if !pdfField.truthy then (⟨400, .required, []⟩, fs0)
  else
    let inp := inputName t
    let fs1 := fsWrite fs0 inp env.doc
    let wr : List Ev := [.fileWrite inp]
    match env.info with
    | .error e =>
      (⟨500, .failure e, wr ++ [.engine "pdfinfo", .fileUnlink inp]⟩,
       fsUnlink fs1 inp)
    | .ok capture =>
      let infoEv := wr ++ [.engine "pdfinfo"]
      let pageCount := capture.getD 0
      if pageField.truthy then
        let pageNumber := jsParseInt pageField
        if nanLt pageNumber 1 || nanGt pageNumber (pageCount : Int) then
          (⟨400, .invalidPage pageCount, infoEv ++ [.fileUnlink inp]⟩,
           fsUnlink fs1 inp)
        else
          match pdfseparatePage env.doc pageNumber with
          | .error e =>
            (⟨500, .failure e,
               infoEv ++ [.engine "pdfseparate", .fileUnlink inp]⟩,
             fsUnlink fs1 inp)
          | .ok d =>
            let out := sepPageName t (pageNumber.getD 0)
            let fs2 := fsWrite fs1 out (some d)
            (⟨200, .single (pageNumber.getD 0) pageCount d,
               infoEv ++ [.engine "pdfseparate", .fileWrite out,
                 .fileUnlink inp, .fileUnlink out]⟩,
             fsUnlink (fsUnlink fs2 inp) out)
      else
        match env.doc with
        | none =>
          (⟨500, .failure "pdfseparate failed",
             infoEv ++ [.engine "pdfseparate", .fileUnlink inp]⟩,
           fsUnlink fs1 inp)
        | some d =>
          let outs : Fs (Option (PdfDoc α)) :=
            d.pages.enum.map (fun p => (sepNumName t (p.1 + 1), some ⟨[p.2]⟩))
          let fs2 := fs1 ++ outs
          let pdfFiles :=
            sortLe
              (fun a b =>
                decide ((matchNumBefore '_' ".pdf" a).getD 0 ≤
                  (matchNumBefore '_' ".pdf" b).getD 0))
              ((fsNames fs2).filter
                (fun f =>
                  strStarts f ("output_" ++ natStr t ++ "_") &&
                    strEnds f ".pdf"))
          let entries := pdfFiles.map
            (fun f =>
              ((matchNumBefore '_' ".pdf" f).getD 0,
               ((fsRead fs2 f).bind id).getD ⟨[]⟩))
          let fs3 := fsUnlink (pdfFiles.foldl fsUnlink fs2) inp
          (⟨200, .all pageCount entries,
             infoEv ++ [.engine "pdfseparate"] ++
               outs.map (fun o => .fileWrite o.1) ++
               pdfFiles.map Ev.fileUnlink ++ [.fileUnlink inp]⟩,
           fs3)

/-! ## The convert-to-images handlers -/

/-- A file in the temp directory of a convert-to-images request: either
the written PDF buffer (bytes of type β) or a rendered image (type γ). -/
inductive TmpFile (β γ : Type) where
  | pdfBuf (b : β)
  | image (g : γ)
deriving DecidableEq, Repr

/-- Outcome of the best-effort form-flattening pre-processing step, which
the code runs inside its own try/catch: the document was flattened and
re-saved as new bytes; or it had no form fields and the buffer was left
alone; or some step (load, flatten, save) threw and was caught. -/
inductive Flatten (β : Type) where
  | flattened (b : β)
  | noFields
  | failed (msg : String)
deriving DecidableEq, Repr

/-- The buffer used after the flattening attempt: only a successful
flatten replaces the original bytes. -/
def flattenBuffer {β : Type} (b0 : β) : Flatten β → β
  | .flattened b => b
  | _ => b0

/-- Entry of the images array of a convert-to-images response. -/
structure ImgEntry (γ : Type) where
  page : Int
  image : γ
deriving DecidableEq, Repr

/-- Body of a convert-to-images JSON response. -/
inductive ConvBody (γ : Type) where
  | required
  | success (count : Nat) (images : List (ImgEntry γ))
  | failure (msg : String)
deriving DecidableEq, Repr

/-- Outcome of a convert-to-images request. -/
structure ConvResult (γ : Type) where
  status : Nat
  body : ConvBody γ
  trace : List Ev
deriving DecidableEq, Repr

/-- Per-page output name used when explicit pages are requested: the
handler passes prefix output_t_page p to pdftoppm, which appends a dash,
the page number and the extension.  (pdftoppm zero-pads the number to
the width of the document page count; the padding changes neither the
parsed page number nor the relative lexicographic order of the names, so
it is not modelled.) -/
def ppmPageFile (t : Nat) (p : Int) (ext : String) : String :=
  "output_" ++ natStr t ++ "_page" ++ intStr p ++ "-" ++ intStr p ++ ext

/-- Output names of a whole-document pdftoppm run with prefix output_t. -/
def ppmAllFile (t : Nat) (i : Nat) (ext : String) : String :=
  "output_" ++ natStr t ++ "-" ++ natStr i ++ ext

/-- Models the per-page pdftoppm commands joined with the shell
and-operator: commands run left to right, each writing its page image
when the page exists, and the first failing command (page out of range,
or any page against a malformed document, whose count is taken as 0)
stops the chain and fails the whole exec, leaving the files written so
far in place. -/
def runPdftoppmPages {β γ : Type} (t : Nat) (ext : String) (pc : Nat)
    (render : Int → γ) : List Int → Fs (TmpFile β γ) →
    Fs (TmpFile β γ) × Bool
  | [], fs => (fs, true)
  | p :: ps, fs =>
    if 1 ≤ p ∧ p ≤ (pc : Int) then
      runPdftoppmPages t ext pc render ps
        (fsWrite fs (ppmPageFile t p ext) (.image (render p)))
    else (fs, false)

/-- Models a whole-document pdftoppm run: one image per page for a
well-formed document, failure with no files for a malformed one. -/
def runPdftoppmAll {β γ : Type} (t : Nat) (ext : String)
    (docPages : Option Nat) (render : Int → γ) (fs : Fs (TmpFile β γ)) :
    Fs (TmpFile β γ) × Bool :=
  match docPages with
  | some pc =>
    ((List.range pc).foldl
      (fun acc i =>
        fsWrite acc (ppmAllFile t (i + 1) ext) (.image (render ((i : Int) + 1))))
      fs, true)
  | none => (fs, false)

/-- The pdftoppm command selection of the convert variants: one
whole-document command when the pages field is absent, not an array, or
an empty array; otherwise one command per requested page joined with the
shell and-operator. -/
def ppmRun {β γ : Type} (t : Nat) (ext : String)
    (pagesField : Option (List Int)) (docPages : Option Nat)
    (render : Int → γ) (fs : Fs (TmpFile β γ)) : Fs (TmpFile β γ) × Bool :=
  match pagesField with
  | some ps =>
    if ps.isEmpty then runPdftoppmAll t ext docPages render fs
    else runPdftoppmPages t ext (docPages.getD 0) render ps fs
  | none => runPdftoppmAll t ext docPages render fs

/-- fs.readFile of an image file; in every reachable use the file exists
and holds an image, so the default is never returned. -/
def readImage {β γ : Type} [Inhabited γ] (fs : Fs (TmpFile β γ))
    (f : String) : γ :=
  match fsRead fs f with
  | some (.image g) => g
  | _ => default

/-- The read-and-collect loop over the matched image files (pdftoppm
variants): read each file, parse its page number from the dash-digits
suffix with the fallback responseImages.length + 1, push the entry, and
unlink the file. -/
def collectImages {β γ : Type} [Inhabited γ] (ext : String)
    (files : List String) (fs : Fs (TmpFile β γ)) :
    List (ImgEntry γ) × Fs (TmpFile β γ) :=
  files.foldl
    (fun acc f =>
      let g := readImage acc.2 f
      let pn : Int :=
        match matchNumBefore '-' ext f with
        | some n => (n : Int)
        | none => ((acc.1.length + 1 : Nat) : Int)
      (acc.1 ++ [⟨pn, g⟩], fsUnlink acc.2 f))
    ([], fs)

/-- The pdftoppm variant of POST /api/convert-to-images with form
flattening (src/unnamed/part_000 lines 86-195).  docPages is the page
count of the written buffer, none for a malformed document; render gives
the image bytes pdftoppm produces for a page of a buffer; catchNow is
the value of Date.now() re-evaluated inside the catch block, which is
strictly later than the request timestamp t. -/
def convertPdftoppm {β γ : Type} [Inhabited γ] (pdfField : JsVal)
    (pagesField : Option (List Int)) (b0 : β) (flat : Flatten β)
    (t catchNow : Nat) (docPages : Option Nat) (render : β → Int → γ)
    (fs0 : Fs (TmpFile β γ)) : ConvResult γ × Fs (TmpFile β γ) :=
  if !pdfField.truthy then (⟨400, .required, []⟩, fs0)
  else
    let buf := flattenBuffer b0 flat
    let inp := inputName t
    let fs1 := fsWrite fs0 inp (.pdfBuf buf)
    let preEv : List Ev := [.engine "pdf-lib-flatten", .fileWrite inp]
    let run := ppmRun t ".png" pagesField docPages (render buf) fs1
    let fs2 := run.1
    if run.2 then
      let imageFiles :=
        sortLe strLe
          ((fsNames fs2).filter
            (fun f => strStarts f ("output_" ++ natStr t) && strEnds f ".png"))
      let col := collectImages ".png" imageFiles fs2
      let fs3 := fsUnlink col.2 inp
      (⟨200, .success col.1.length col.1,
         preEv ++ [.engine "pdftoppm"] ++ imageFiles.map Ev.fileUnlink ++
           [.fileUnlink inp]⟩, fs3)
    else
      -- catch block: unlink the temp PDF, then try to remove the output
      -- files — but the filter re-evaluates Date.now() instead of using
      -- the request timestamp, so it matches nothing
      let fs3 := fsUnlink fs2 inp
      let cleanup :=
        (fsNames fs3).filter
          (fun f => strStarts f ("output_" ++ natStr catchNow))
      let fs4 := cleanup.foldl fsUnlink fs3
      (⟨500, .failure "pdftoppm failed",
         preEv ++ [.engine "pdftoppm", .fileUnlink inp] ++
           cleanup.map Ev.fileUnlink⟩, fs4)

/-- Page number attached to the image at position idx of the pdf2img
output: pages[idx] when the pages field holds an array with a truthy
(nonzero) entry at that position, else idx + 1.  A non-array pages value
is modelled as none: indexing it yields undefined, which is falsy, so it
behaves as an absent field here. -/
def pdf2imgPageNum (pagesField : Option (List Int)) (idx : Nat) : Int :=
  match pagesField with
  | some ps =>
    match ps.get? idx with
    | some v => if v != 0 then v else ((idx + 1 : Nat) : Int)
    | none => ((idx + 1 : Nat) : Int)
  | none => ((idx + 1 : Nat) : Int)

/-- The response-images mapping of the pdf2img variants. -/
def pdf2imgEntries {γ : Type} (pagesField : Option (List Int))
    (outputImages : List γ) : List (ImgEntry γ) :=
  outputImages.enum.map (fun p => ⟨pdf2imgPageNum pagesField p.1, p.2⟩)

/-- The pdf2img variant of POST /api/convert-to-images without
flattening (src/unnamed/part_001 lines 93-144).  convertRes is the
outcome of pdf2img.convert on the decoded buffer with the configured
page numbers. -/
def convertPdf2img {γ : Type} (pdfField : JsVal)
    (pagesField : Option (List Int)) (convertRes : Except String (List γ)) :
    ConvResult γ :=
  if !pdfField.truthy then ⟨400, .required, []⟩
  else
    match convertRes with
    | .error e => ⟨500, .failure e, [.engine "pdf2img"]⟩
    | .ok outputImages =>
      let entries := pdf2imgEntries pagesField outputImages
      ⟨200, .success entries.length entries, [.engine "pdf2img"]⟩

/-- The pdf2img variant of POST /api/convert-to-images with the manual
flattening step (second document of src/server.js, lines 330-380 of the
concatenated file; likewise the second document of part_000).  conv is
pdf2img.convert as a function of the buffer it is given. -/
def convertPdf2imgFlat {β γ : Type} (pdfField : JsVal)
    (pagesField : Option (List Int)) (b0 : β) (flat : Flatten β)
    (conv : β → Except String (List γ)) : ConvResult γ :=
  if !pdfField.truthy then ⟨400, .required, []⟩
  else
    let buf := flattenBuffer b0 flat
    let flatEv : List Ev := [.engine "pdf-lib-flatten"]
    match conv buf with
    | .error e => ⟨500, .failure e, flatEv ++ [.engine "pdf2img"]⟩
    | .ok outputImages =>
      let entries := pdf2imgEntries pagesField outputImages
      ⟨200, .success entries.length entries, flatEv ++ [.engine "pdf2img"]⟩

/-! ## The jpeg variant with the maximum-size resize policy -/

/-- maxSizeBytes = maxSize * 1024 * 1024 (maxSize is in megabytes). -/
def maxSizeBytesOf (maxSize : Nat) : Nat := maxSize * 1024 * 1024

/-- The whole-percent scale factor of the resize branch:
Math.floor(Math.sqrt(maxSizeBytes / actualBytes) * 0.9 * 100), computed
exactly — floor(sqrt(m / a) * 90) = Nat.sqrt(8100 * m / a), proved below
as scalePercent_eq_floor. -/
def scalePercent (maxBytes actual : Nat) : Nat :=
  Nat.sqrt (8100 * maxBytes / actual)

/-- One image of the processing loop of the jpeg variant
(src/server.js lines 143-177): when the buffer exceeds maxSizeBytes it
is resized by ImageMagick to scalePercent percent, otherwise it is kept
as is; size gives a buffer's byte length and magick models the convert
-resize call.  (The resized temp file is written, read back and unlinked
within the same iteration and is not tracked separately.) -/
def processImage {γ : Type} (maxSizeBytes : Nat) (size : γ → Nat)
    (magick : γ → Nat → γ) (g : γ) : γ × List Ev :=
  if maxSizeBytes < size g then
    (magick g (scalePercent maxSizeBytes (size g)),
     [.engine "imagemagick-convert"])
  else (g, [])

/-- The read-process-collect loop of the jpeg variant: like
collectImages but with the conditional ImageMagick resize applied to
each buffer before the entry is pushed. -/
def collectImagesJpeg {β γ : Type} [Inhabited γ] (maxSizeBytes : Nat)
    (size : γ → Nat) (magick : γ → Nat → γ) (files : List String)
    (fs : Fs (TmpFile β γ)) :
    List (ImgEntry γ) × Fs (TmpFile β γ) × List Ev :=
  files.foldl
    (fun acc f =>
      let g0 := readImage acc.2.1 f
      let pr := processImage maxSizeBytes size magick g0
      let pn : Int :=
        match matchNumBefore '-' ".jpg" f with
        | some n => (n : Int)
        | none => ((acc.1.length + 1 : Nat) : Int)
      (acc.1 ++ [⟨pn, pr.1⟩], fsUnlink acc.2.1 f, acc.2.2 ++ pr.2))
    ([], fs, [])

/-- The jpeg pdftoppm variant of POST /api/convert-to-images with the
maximum-size policy (src/server.js lines 102-202).  Its catch block
references the timestamp constant, which is block-scoped inside try and
not in scope in the catch handler: evaluating the filter throws a
ReferenceError that the nested try/catch swallows, so on the error path
only the temp PDF is removed and no output file is cleaned up. -/
def convertJpeg {β γ : Type} [Inhabited γ] (pdfField : JsVal)
    (pagesField : Option (List Int)) (maxSize : Nat) (b0 : β)
    (t : Nat) (docPages : Option Nat) (render : β → Int → γ)
    (size : γ → Nat) (magick : γ → Nat → γ) (fs0 : Fs (TmpFile β γ)) :
    ConvResult γ × Fs (TmpFile β γ) :=
  if !pdfField.truthy then (⟨400, .required, []⟩, fs0)
  else
    let inp := inputName t
    let fs1 := fsWrite fs0 inp (.pdfBuf b0)
    let run := ppmRun t ".jpg" pagesField docPages (render b0) fs1
    let fs2 := run.1
    if run.2 then
      let imageFiles :=
        sortLe strLe
          ((fsNames fs2).filter
            (fun f => strStarts f ("output_" ++ natStr t) && strEnds f ".jpg"))
      let col :=
        collectImagesJpeg (maxSizeBytesOf maxSize) size magick imageFiles fs2
      let fs3 := fsUnlink col.2.1 inp
      (⟨200, .success col.1.length col.1,
         [.fileWrite inp, .engine "pdftoppm"] ++ col.2.2 ++
           imageFiles.map Ev.fileUnlink ++ [.fileUnlink inp]⟩, fs3)
    else
      (⟨500, .failure "pdftoppm failed",
         [.fileWrite inp, .engine "pdftoppm", .fileUnlink inp]⟩,
       fsUnlink fs2 inp)

example :
    ((convertPdftoppm (β := Nat) (γ := Nat) (.str "cGRm") (some [2, 10]) 0
      .noFields 100 101 (some 10) (fun _ p => p.toNat * 7) []).1.body) =
    .success 2 [⟨10, 70⟩, ⟨2, 14⟩] := by decide

example :
    (fsNames (convertPdftoppm (β := Nat) (γ := Nat) (.str "cGRm")
      (some [1, 999]) 0 .noFields 100 101 (some 1)
      (fun _ p => p.toNat) []).2) = ["output_100_page1-1.png"] := by decide

example :
    ((convertPdftoppm (β := Nat) (γ := Nat) (.str "cGRm") (some [1, 999]) 0
      .noFields 100 101 (some 1) (fun _ p => p.toNat) []).1.status) = 500 := by
  decide

example :
    ((convertPdftoppm (β := Nat) (γ := Nat) (.str "cGRm") (some [2, 4]) 0
      .noFields 100 101 (some 5) (fun _ p => p.toNat) []).1.body) =
    .success 2 [⟨2, 2⟩, ⟨4, 4⟩] := by decide

example :
    (splitPoppler (α := Nat) (.str "cGRm") .undef 100
      ⟨some ⟨[7, 8]⟩, .ok (some 2)⟩ []).1.body =
    .all 2 [(1, ⟨[7]⟩), (2, ⟨[8]⟩)] := by decide

example :
    (splitPoppler (α := Nat) (.str "cGRm") (.str "99") 100
      ⟨some ⟨[7]⟩, .ok (some 1)⟩ []).1 =
    ⟨400, .invalidPage 1,
      [.fileWrite "input_100.pdf", .engine "pdfinfo",
       .fileUnlink "input_100.pdf"]⟩ := by decide

/-! ## Lemmas on decimal names, parsing and sorting -/

theorem strStarts_of_data (s p : String) (r : List Char)
    (h : s.data = p.data ++ r) : strStarts s p = true := by
  simp [strStarts, h, List.take_left]

theorem strEnds_of_data (s p : String) (r : List Char)
    (h : s.data = r ++ p.data) : strEnds s p = true := by
  have hq : (p.data.reverse ++ r.reverse).take p.data.length =
      p.data.reverse :=
    List.take_left' (by simp)
  simp [strEnds, h, List.reverse_append, hq]

theorem strStarts_false_of_head (s p : String) (c1 c2 : Char)
    (s1 p1 : List Char) (hs : s.data = c1 :: s1) (hp : p.data = c2 :: p1)
    (hne : c1 ≠ c2) : strStarts s p = false := by
  rw [strStarts, hs, hp, List.length_cons, List.take_succ_cons,
    beq_eq_false_iff_ne]
  intro hq
  injection hq with h1 _
  exact hne h1

theorem natCharsAux_congr :
    ∀ (n f1 f2 : Nat), n < f1 → n < f2 →
      natCharsAux f1 n = natCharsAux f2 n := by
  intro n
  induction n using Nat.strong_induction_on with
  | _ n ih =>
    intro f1 f2 h1 h2
    match f1, f2 with
    | 0, _ => exact absurd h1 (by omega)
    | _ + 1, 0 => exact absurd h2 (by omega)
    | fa + 1, fb + 1 =>
      simp only [natCharsAux]
      by_cases h : n < 10
      · simp [h]
      · rw [if_neg h, if_neg h,
          ih (n / 10) (by omega) fa fb (by omega) (by omega)]

theorem natChars_eq (n : Nat) :
    natChars n = if n < 10 then [digitChar n]
      else natChars (n / 10) ++ [digitChar (n % 10)] := by
  show natCharsAux (n + 1) n = _
  simp only [natCharsAux]
  by_cases h : n < 10
  · simp [h]
  · rw [if_neg h, if_neg h,
      natCharsAux_congr (n / 10) n (n / 10 + 1) (by omega) (by omega)]
    rfl

theorem digitChar_isDigit : ∀ d : Nat, (digitChar d).isDigit = true
  | 0 => rfl
  | 1 => rfl
  | 2 => rfl
  | 3 => rfl
  | 4 => rfl
  | 5 => rfl
  | 6 => rfl
  | 7 => rfl
  | 8 => rfl
  | _ + 9 => rfl

theorem digitChar_toNat (d : Nat) (h : d < 10) :
    (digitChar d).toNat = 48 + d := by
  interval_cases d <;> rfl

theorem digitsToNat_append (xs : List Char) (c : Char) :
    digitsToNat (xs ++ [c]) = 10 * digitsToNat xs + (c.toNat - 48) := by
  simp [digitsToNat, List.foldl_append]
  ring

theorem digitsToNat_natChars (n : Nat) : digitsToNat (natChars n) = n := by
  induction n using Nat.strong_induction_on with
  | _ n ih =>
    rw [natChars_eq]
    by_cases h : n < 10
    · rw [if_pos h]
      simp [digitsToNat, digitChar_toNat n h]
    · rw [if_neg h, digitsToNat_append, ih (n / 10) (by omega),
        digitChar_toNat (n % 10) (by omega)]
      omega

theorem natChars_ne_nil (n : Nat) : natChars n ≠ [] := by
  rw [natChars_eq]
  by_cases h : n < 10 <;> simp [h]

theorem natChars_all_digits (n : Nat) :
    ∀ c ∈ natChars n, c.isDigit = true := by
  induction n using Nat.strong_induction_on with
  | _ n ih =>
    rw [natChars_eq]
    by_cases h : n < 10
    · simp only [if_pos h, List.mem_singleton]
      rintro c rfl
      exact digitChar_isDigit n
    · simp only [if_neg h, List.mem_append, List.mem_singleton]
      rintro c (hc | rfl)
      · exact ih (n / 10) (by omega) c hc
      · exact digitChar_isDigit _

theorem takeWhile_all_append (p : Char → Bool) :
    ∀ (xs : List Char) (y : Char) (ys : List Char),
      (∀ x ∈ xs, p x = true) → p y = false →
      (xs ++ y :: ys).takeWhile p = xs
  | [], y, ys, _, hy => by simp [List.takeWhile_cons, hy]
  | x :: xs, y, ys, hall, hy => by
    simp only [List.cons_append, List.takeWhile_cons,
      hall x (by simp), if_true]
    rw [takeWhile_all_append p xs y ys
      (fun a ha => hall a (by simp [ha])) hy]

theorem inputName_data (t : Nat) :
    (inputName t).data =
      'i' :: ("nput_".data ++ (natChars t ++ ".pdf".data)) := rfl

theorem outPre_data (t : Nat) :
    ("output_" ++ natStr t ++ "_").data =
      'o' :: ("utput_".data ++ (natChars t ++ "_".data)) := rfl

theorem sepNumName_data_head (t j : Nat) :
    (sepNumName t j).data =
      'o' :: ("utput_".data ++
        (natChars t ++ ('_' :: (natChars j ++ ".pdf".data)))) := by
  simp [sepNumName, natStr]

theorem matchNumBefore_sepNumName (t j : Nat) :
    matchNumBefore '_' ".pdf" (sepNumName t j) = some j := by
  have hdata : (sepNumName t j).data =
      (("output_" ++ natStr t).data ++ ('_' :: natChars j)) ++
        ".pdf".data := by
    simp [sepNumName, natStr]
  have hend : strEnds (sepNumName t j) ".pdf" = true :=
    strEnds_of_data _ _ _ hdata
  have hrev : (sepNumName t j).data.reverse =
      ".pdf".data.reverse ++ ((natChars j).reverse ++
        ('_' :: ("output_" ++ natStr t).data.reverse)) := by
    rw [hdata]
    simp [List.reverse_append]
  have hdrop4 : (sepNumName t j).data.reverse.drop ".pdf".data.length =
      (natChars j).reverse ++
        ('_' :: ("output_" ++ natStr t).data.reverse) := by
    rw [hrev]
    exact List.drop_left' (by simp)
  have hds : ((natChars j).reverse ++
        ('_' :: ("output_" ++ natStr t).data.reverse)).takeWhile
        Char.isDigit = (natChars j).reverse :=
    takeWhile_all_append _ _ _ _
      (fun c hc => natChars_all_digits j c (List.mem_reverse.mp hc)) rfl
  have hdrop2 : ((natChars j).reverse ++
        ('_' :: ("output_" ++ natStr t).data.reverse)).drop
        (natChars j).reverse.length =
      '_' :: ("output_" ++ natStr t).data.reverse := List.drop_left _ _
  have hne : (natChars j).reverse ≠ [] := by
    simp [natChars_ne_nil j]
  simp only [matchNumBefore, if_pos hend, hdrop4, hds, hdrop2]
  simp [hne, List.reverse_reverse, digitsToNat_natChars]

theorem sepNumName_inj (t i j : Nat) (h : sepNumName t i = sepNumName t j) :
    i = j := by
  have h1 := matchNumBefore_sepNumName t i
  rw [h, matchNumBefore_sepNumName t j] at h1
  exact (Option.some.inj h1).symm

theorem pred_inputName (t : Nat) :
    (strStarts (inputName t) ("output_" ++ natStr t ++ "_") &&
      strEnds (inputName t) ".pdf") = false := by
  rw [strStarts_false_of_head (inputName t) _ 'i' 'o' _ _ (inputName_data t)
    (outPre_data t) (by decide)]
  rfl

theorem pred_sepNumName (t j : Nat) :
    (strStarts (sepNumName t j) ("output_" ++ natStr t ++ "_") &&
      strEnds (sepNumName t j) ".pdf") = true := by
  rw [strStarts_of_data _ _ (natChars j ++ ".pdf".data)
      (by simp [sepNumName, natStr]),
    strEnds_of_data _ _ (("output_" ++ natStr t ++ "_").data ++ natChars j)
      (by simp [sepNumName, natStr])]
  rfl

theorem sepNumName_beq_inputName (t1 t2 j : Nat) :
    (sepNumName t2 j == inputName t1) = false := by
  rw [beq_eq_false_iff_ne]
  intro h
  have hd := congrArg String.data h
  rw [inputName_data, sepNumName_data_head] at hd
  injection hd with h1 _
  exact absurd h1 (by decide)

theorem lookup_sepNum {α : Type} (t : Nat) :
    ∀ (pages : List α) (s j : Nat) (hj : j < pages.length),
      List.lookup (sepNumName t (s + j + 1))
        ((pages.enumFrom s).map
          (fun p => (sepNumName t (p.1 + 1),
            some (⟨[p.2]⟩ : PdfDoc α)))) =
        some (some ⟨[pages.get ⟨j, hj⟩]⟩)
  | [], s, j, hj => by simp at hj
  | a :: as, s, 0, hj => by
    simp [List.enumFrom, List.lookup]
  | a :: as, s, j + 1, hj => by
    have hne : (sepNumName t (s + (j + 1) + 1) == sepNumName t (s + 1)) =
        false := by
      rw [beq_eq_false_iff_ne]
      intro h
      have := sepNumName_inj t _ _ h
      omega
    simp only [List.enumFrom, List.map_cons, List.lookup, hne]
    rw [show s + (j + 1) + 1 = (s + 1) + j + 1 by omega,
      lookup_sepNum t as (s + 1) j (by simpa using hj)]
    simp

theorem sortLe_eq_of_chain {σ : Type} (le : σ → σ → Bool) :
    ∀ l : List σ, l.Chain' (fun a b => le a b = true) → sortLe le l = l
  | [], _ => rfl
  | [x], _ => rfl
  | x :: y :: ys, h => by
    have h1 := (List.chain'_cons.mp h).1
    have h2 := (List.chain'_cons.mp h).2
    rw [show sortLe le (x :: y :: ys) =
        insertLe le x (sortLe le (y :: ys)) from rfl,
      sortLe_eq_of_chain le (y :: ys) h2,
      show insertLe le x (y :: ys) =
        if le x y then x :: y :: ys else y :: insertLe le x ys from rfl,
      if_pos h1]

theorem chain_sepNames (t N : Nat) :
    ((List.range N).map (fun i => sepNumName t (i + 1))).Chain'
      (fun a b => (decide ((matchNumBefore '_' ".pdf" a).getD 0 ≤
        (matchNumBefore '_' ".pdf" b).getD 0)) = true) := by
  rw [List.chain'_iff_get]
  intro i h
  simp only [List.get_eq_getElem, List.getElem_map, List.getElem_range,
    matchNumBefore_sepNumName, Option.getD_some, decide_eq_true_eq]
  omega

/-- Helper: the poppler split handler with no page field on a
well-formed document whose pdfinfo probe reports the true page count:
the response is 200 and its pages array is the per-page extraction in
ascending page order, reconstructed from the pdfseparate output files by
the filter, lexicographic-number sort and file-name parse of the
handler. -/
theorem splitPoppler_split_all {α : Type} (pdfField : JsVal)
    (doc : PdfDoc α) (t : Nat) (hpdf : pdfField.truthy = true) :
    (splitPoppler pdfField .undef t ⟨some doc, .ok (some doc.pages.length)⟩
      []).1.status = 200 ∧
    (splitPoppler pdfField .undef t ⟨some doc, .ok (some doc.pages.length)⟩
      []).1.body = .all doc.pages.length
        (doc.pages.enum.map (fun p => (p.1 + 1, ⟨[p.2]⟩))) := by
  have hu : JsVal.undef.truthy = false := rfl
  constructor
  · simp [splitPoppler, hpdf, hu]
  · simp only [splitPoppler, hpdf, hu, Bool.not_true, Bool.false_eq_true,
      if_false, Option.getD_some]
    congr 1
    have hnames : fsNames
        (fsWrite ([] : Fs (Option (PdfDoc α))) (inputName t) (some doc) ++
          doc.pages.enum.map
            (fun p => (sepNumName t (p.1 + 1), some ⟨[p.2]⟩))) =
        inputName t ::
          doc.pages.enum.map (fun p => sepNumName t (p.1 + 1)) := by
      simp [fsNames, fsWrite]
    have hrange : doc.pages.enum.map (fun p => sepNumName t (p.1 + 1)) =
        (List.range doc.pages.length).map (fun i => sepNumName t (i + 1)) := by
      apply List.ext_getElem
      · simp
      · intro i hi1 hi2
        simp
    have hfilter :
        List.filter
          (fun f => strStarts f ("output_" ++ natStr t ++ "_") &&
            strEnds f ".pdf")
          (inputName t ::
            (List.range doc.pages.length).map
              (fun i => sepNumName t (i + 1))) =
        (List.range doc.pages.length).map (fun i => sepNumName t (i + 1)) := by
      rw [List.filter_cons_of_neg (by simp [pred_inputName t])]
      apply List.filter_eq_self.mpr
      intro f hf
      obtain ⟨i, hi, rfl⟩ := List.mem_map.mp hf
      exact pred_sepNumName t (i + 1)
    rw [hnames, hrange, hfilter,
      sortLe_eq_of_chain _ _ (chain_sepNames t doc.pages.length)]
    apply List.ext_getElem
    · simp
    · intro i hi1 hi2
      have hi : i < doc.pages.length := by simpa using hi2
      have hlook := lookup_sepNum t doc.pages 0 i hi
      rw [Nat.zero_add] at hlook
      have hread : fsRead
          (fsWrite ([] : Fs (Option (PdfDoc α))) (inputName t) (some doc) ++
            doc.pages.enum.map
              (fun p => (sepNumName t (p.1 + 1), some ⟨[p.2]⟩)))
          (sepNumName t (i + 1)) =
          some (some ⟨[doc.pages.get ⟨i, hi⟩]⟩) := by
        simp only [fsRead, fsWrite, List.nil_append, List.singleton_append,
          List.lookup, sepNumName_beq_inputName t t (i + 1), List.enum]
        exact hlook
      simp only [List.getElem_map, List.getElem_range, List.getElem_enum,
        matchNumBefore_sepNumName, Option.getD_some, hread]
      simp [List.get_eq_getElem]

/-- C9: in every handler of both endpoints, a pdf field that is the
empty string — or any other falsy value, not only an absent field — is
rejected with status 400 and the PDF-data-is-required error before
anything else happens: no engine is invoked, no file is written (the
trace is empty) and the temp directory is untouched. -/
theorem claim9_falsy_pdf_rejected {α β γ : Type} [Inhabited γ]
    (pdfField : JsVal) (hpdf : pdfField.truthy = false)
    (pageField : JsVal) (load : Except String (PdfDoc α))
    (t catchNow : Nat) (env : PopplerEnv α) (fs0 : Fs (Option (PdfDoc α)))
    (pagesField : Option (List Int)) (b0 : β) (flat : Flatten β)
    (docPages : Option Nat) (render : β → Int → γ)
    (fsc : Fs (TmpFile β γ)) (convertRes : Except String (List γ))
    (conv : β → Except String (List γ)) (maxSize : Nat) (size : γ → Nat)
    (magick : γ → Nat → γ) :
    splitPdfLib pdfField pageField load = ⟨400, .required, []⟩ ∧
    splitPoppler pdfField pageField t env fs0 = (⟨400, .required, []⟩, fs0) ∧
    convertPdftoppm pdfField pagesField b0 flat t catchNow docPages render
      fsc = (⟨400, .required, []⟩, fsc) ∧
    convertPdf2img pdfField pagesField convertRes = ⟨400, .required, []⟩ ∧
    convertPdf2imgFlat pdfField pagesField b0 flat conv =
      ⟨400, .required, []⟩ ∧
    convertJpeg pdfField pagesField maxSize b0 t docPages render size magick
      fsc = (⟨400, .required, []⟩, fsc) := by
  refine ⟨?_, ?_, ?_, ?_, ?_, ?_⟩ <;>
    simp [splitPdfLib, splitPoppler, convertPdftoppm, convertPdf2img,
      convertPdf2imgFlat, convertJpeg, hpdf]

/-- C9 witness: the theorem applied to pdf = the empty string on the
pdf-lib split handler. -/
theorem claim9_falsy_pdf_rejected_wit :
    (JsVal.str "").truthy = false ∧
    splitPdfLib (α := Nat) (.str "") .undef (.ok ⟨[1]⟩) =
      ⟨400, .required, []⟩ :=
  ⟨by decide,
   (claim9_falsy_pdf_rejected (α := Nat) (β := Nat) (γ := Nat) (.str "")
     (by decide) .undef (.ok ⟨[1]⟩) 0 0 ⟨none, .error ""⟩ [] none 0
     .noFields none (fun _ _ => 0) [] (.error "") (fun _ => .error "") 0
     (fun _ => 0) (fun g _ => g)).1⟩

/-- C1 counterexample: with a 2-page document, page = the non-numeric
string abc parses to NaN, both range comparisons on NaN are false, the
NaN index reaches the engine and the response is 500, not the claimed
400 — in the pdf-lib variant and in the poppler variant alike; and the
numeric value page = 0 is falsy, so the handler treats the field as
absent and splits the whole document with status 200 instead of
rejecting it. -/
theorem claim1_invalid_page_cx :
    (splitPdfLib (α := Nat) (.str "cGRm") (.str "abc")
      (.ok ⟨[10, 20]⟩)).status = 500 ∧
    (splitPdfLib (α := Nat) (.str "cGRm") (.str "abc")
      (.ok ⟨[10, 20]⟩)).body = .failure "index out of range" ∧
    (splitPoppler (α := Nat) (.str "cGRm") (.str "abc") 100
      ⟨some ⟨[10, 20]⟩, .ok (some 2)⟩ []).1.status = 500 ∧
    (splitPdfLib (α := Nat) (.str "cGRm") (.num 0)
      (.ok ⟨[10, 20]⟩)).status = 200 ∧
    (splitPdfLib (α := Nat) (.str "cGRm") (.num 0)
      (.ok ⟨[10, 20]⟩)).body =
      .all 2 [(1, ⟨[10]⟩), (2, ⟨[20]⟩)] := by
  refine ⟨?_, ?_, ?_, ?_, ?_⟩ <;> decide

/-- Helper: the pdf-lib split handler on a truthy page field whose
parseInt value v is an actual number out of range. -/
theorem splitPdfLib_invalid_page {α : Type} (pdfField pageField : JsVal)
    (doc : PdfDoc α) (v : Int)
    (hpdf : pdfField.truthy = true) (hpg : pageField.truthy = true)
    (hv : jsParseInt pageField = some v)
    (h1 : v < 1 ∨ (doc.pages.length : Int) < v) :
    splitPdfLib pdfField pageField (.ok doc) =
      ⟨400, .invalidPage doc.pages.length, [.engine "PDFDocument.load"]⟩ := by
  have hc : (nanLt ((jsParseInt pageField).map (fun x => x - 1)) 0 ||
      nanGe ((jsParseInt pageField).map (fun x => x - 1))
        ((doc.pages.length : Nat) : Int)) = true := by
    rw [hv]
    show (nanLt (some (v - 1)) 0 ||
      nanGe (some (v - 1)) ((doc.pages.length : Nat) : Int)) = true
    simp only [nanLt, nanGe, Bool.or_eq_true, decide_eq_true_eq]
    omega
  simp [splitPdfLib, hpdf, hpg, hc]

/-- Helper: the poppler split handler on a truthy page field whose
parseInt value v is an actual number out of the pdfinfo-reported range. -/
theorem splitPoppler_invalid_page {α : Type} (pdfField pageField : JsVal)
    (dop : Option (PdfDoc α)) (t N : Nat) (v : Int)
    (fs0 : Fs (Option (PdfDoc α)))
    (hpdf : pdfField.truthy = true) (hpg : pageField.truthy = true)
    (hv : jsParseInt pageField = some v)
    (h2 : v < 1 ∨ (N : Int) < v) :
    (splitPoppler pdfField pageField t ⟨dop, .ok (some N)⟩ fs0).1 =
      ⟨400, .invalidPage N,
        [.fileWrite (inputName t), .engine "pdfinfo",
         .fileUnlink (inputName t)]⟩ := by
  have hc : (nanLt (jsParseInt pageField) 1 ||
      nanGt (jsParseInt pageField) ((N : Nat) : Int)) = true := by
    rw [hv]
    simp only [nanLt, nanGt, Bool.or_eq_true, decide_eq_true_eq]
    omega
  simp [splitPoppler, hpdf, hpg, hc]

/-- C1 as amended: when the page field is truthy and parseInt yields an
actual number v (not NaN) with v < 1 or v > pageCount, both split
variants answer 400 with the Invalid-page-number body carrying the page
count; a falsy page field (such as the number 0) and a NaN parse are
not covered by this check. -/
theorem claim1_invalid_page_amended {α : Type} (pdfField pageField : JsVal)
    (doc : PdfDoc α) (dop : Option (PdfDoc α)) (t N : Nat) (v : Int)
    (fs0 : Fs (Option (PdfDoc α)))
    (hpdf : pdfField.truthy = true) (hpg : pageField.truthy = true)
    (hv : jsParseInt pageField = some v)
    (h1 : v < 1 ∨ (doc.pages.length : Int) < v)
    (h2 : v < 1 ∨ (N : Int) < v) :
    splitPdfLib pdfField pageField (.ok doc) =
      ⟨400, .invalidPage doc.pages.length, [.engine "PDFDocument.load"]⟩ ∧
    (splitPoppler pdfField pageField t ⟨dop, .ok (some N)⟩ fs0).1 =
      ⟨400, .invalidPage N,
        [.fileWrite (inputName t), .engine "pdfinfo",
         .fileUnlink (inputName t)]⟩ :=
  ⟨splitPdfLib_invalid_page pdfField pageField doc v hpdf hpg hv h1,
   splitPoppler_invalid_page pdfField pageField dop t N v fs0 hpdf hpg hv h2⟩

/-- C1 witness: the amended theorem applied to page = 3 on a 2-page
document. -/
theorem claim1_invalid_page_wit :
    (JsVal.str "cGRm").truthy = true ∧ (JsVal.num 3).truthy = true ∧
    jsParseInt (JsVal.num 3) = some 3 ∧
    splitPdfLib (α := Nat) (.str "cGRm") (.num 3) (.ok ⟨[10, 20]⟩) =
      ⟨400, .invalidPage 2, [.engine "PDFDocument.load"]⟩ :=
  ⟨by decide, by decide, by decide,
   (claim1_invalid_page_amended (α := Nat) (.str "cGRm") (.num 3)
     ⟨[10, 20]⟩ none 100 2 3 [] (by decide) (by decide) (by decide)
     (by decide) (by decide)).1⟩

/-- C3: the claim that every temp file is removed before the response on
every failure path is right as a specification and the code breaks it:
on pdf = a valid 1-page document with pages = [1, 999], the first
pdftoppm command writes output_100_page1-1.png and the second fails, the
handler answers 500, and the catch-block filter — built from Date.now()
re-evaluated at cleanup time (101), not the request timestamp (100) —
matches nothing, so the output file is still on disk after the response. -/
theorem claim3_temp_file_left :
    ((convertPdftoppm (β := Nat) (γ := Nat) (.str "cGRm") (some [1, 999]) 0
      .noFields 100 101 (some 1) (fun _ p => p.toNat) []).1.status = 500) ∧
    fsNames ((convertPdftoppm (β := Nat) (γ := Nat) (.str "cGRm")
      (some [1, 999]) 0 .noFields 100 101 (some 1)
      (fun _ p => p.toNat) []).2) = ["output_100_page1-1.png"] := by
  exact ⟨by decide, by decide⟩

/-- C4 counterexample: a page-validation failure does not short-circuit
before every engine call — on a 1-page document with page = 99 the
poppler variant has already run pdfinfo, and the pdf-lib variant has
already run PDFDocument.load, when the 400 Invalid-page-number response
is produced. -/
theorem claim4_validation_order_cx :
    ((splitPoppler (α := Nat) (.str "cGRm") (.str "99") 100
      ⟨some ⟨[7]⟩, .ok (some 1)⟩ []).1.status = 400) ∧
    ((splitPoppler (α := Nat) (.str "cGRm") (.str "99") 100
      ⟨some ⟨[7]⟩, .ok (some 1)⟩ []).1.body = .invalidPage 1) ∧
    ((splitPoppler (α := Nat) (.str "cGRm") (.str "99") 100
      ⟨some ⟨[7]⟩, .ok (some 1)⟩ []).1.trace.filter Ev.isEngine =
      [.engine "pdfinfo"]) ∧
    ((splitPdfLib (α := Nat) (.str "cGRm") (.str "99")
      (.ok ⟨[7]⟩)).status = 400) ∧
    ((splitPdfLib (α := Nat) (.str "cGRm") (.str "99")
      (.ok ⟨[7]⟩)).trace.filter Ev.isEngine =
      [.engine "PDFDocument.load"]) := by
  refine ⟨?_, ?_, ?_, ?_, ?_⟩ <;> decide

/-- C4 as amended: a missing-pdf validation failure does short-circuit
before any engine call (empty trace), while a page-range validation
failure is necessarily produced after exactly one engine call — the
page-count probe (pdfinfo, or PDFDocument.load) — and before any
extraction engine (pdfseparate, copyPages) runs. -/
theorem claim4_validation_order_amended {α : Type}
    (pdfField pageField : JsVal) (doc : PdfDoc α) (dop : Option (PdfDoc α))
    (t N : Nat) (v : Int) (fs0 : Fs (Option (PdfDoc α)))
    (hpdf : pdfField.truthy = true) (hpg : pageField.truthy = true)
    (hv : jsParseInt pageField = some v)
    (h1 : v < 1 ∨ (doc.pages.length : Int) < v)
    (h2 : v < 1 ∨ (N : Int) < v) :
    ((splitPoppler pdfField pageField t ⟨dop, .ok (some N)⟩
      fs0).1.trace.filter Ev.isEngine = [.engine "pdfinfo"]) ∧
    ((splitPdfLib pdfField pageField (.ok doc)).trace.filter Ev.isEngine =
      [.engine "PDFDocument.load"]) ∧
    (∀ pf : JsVal, pf.truthy = false →
      (splitPdfLib (α := α) pf pageField (.ok doc)).trace = [] ∧
      (splitPoppler pf pageField t ⟨dop, .ok (some N)⟩ fs0).1.trace = []) := by
  have e1 := splitPdfLib_invalid_page pdfField pageField doc v hpdf hpg hv h1
  have e2 := splitPoppler_invalid_page pdfField pageField dop t N v fs0
    hpdf hpg hv h2
  refine ⟨?_, ?_, ?_⟩
  · rw [e2]; rfl
  · rw [e1]; rfl
  · intro pf hpf
    constructor <;> simp [splitPdfLib, splitPoppler, hpf]

/-- C4 witness: the amended theorem applied to page = 99 on a 1-page
document. -/
theorem claim4_validation_order_wit :
    (JsVal.str "cGRm").truthy = true ∧
    jsParseInt (JsVal.str "99") = some 99 ∧
    (splitPdfLib (α := Nat) (.str "cGRm") (.str "99")
      (.ok ⟨[7]⟩)).trace.filter Ev.isEngine = [.engine "PDFDocument.load"] :=
  ⟨by decide, by decide,
   (claim4_validation_order_amended (α := Nat) (.str "cGRm") (.str "99")
     ⟨[7]⟩ (some ⟨[7]⟩) 100 1 99 [] (by decide) (by decide) (by decide)
     (by decide) (by decide)).2.1⟩

/-- Helper: the pdf-lib split handler on a valid single page request. -/
theorem splitPdfLib_single_page {α : Type} (pdfField : JsVal)
    (doc : PdfDoc α) (k : Nat) (hpdf : pdfField.truthy = true)
    (h1 : 1 ≤ k) (h2 : k ≤ doc.pages.length) :
    splitPdfLib pdfField (.num k) (.ok doc) =
      ⟨200, .single k doc.pages.length
        ⟨[doc.pages.get ⟨k - 1, by omega⟩]⟩,
        [.engine "PDFDocument.load", .engine "copyPages"]⟩ := by
  have hpg : (JsVal.num (k : Int)).truthy = true := by
    simp only [JsVal.truthy, bne_iff_ne, ne_eq, decide_eq_true_eq]
    omega
  have hc : (nanLt (some ((k : Int) - 1)) 0 ||
      nanGe (some ((k : Int) - 1)) ((doc.pages.length : Nat) : Int)) =
      false := by
    simp only [nanLt, nanGe, Bool.or_eq_false_iff, decide_eq_false_iff_not]
    omega
  have hcond : 0 ≤ (k : Int) - 1 ∧
      ((k : Int) - 1).toNat < doc.pages.length := by omega
  have hidx : ((k : Int) - 1).toNat = k - 1 := by omega
  have hlt : k - 1 < doc.pages.length := by omega
  simp [splitPdfLib, hpdf, hpg, jsParseInt, hc, copyPage, hcond, hidx, hlt]

/-- Helper: the poppler split handler on a valid single page request. -/
theorem splitPoppler_single_page {α : Type} (pdfField : JsVal)
    (doc : PdfDoc α) (k t : Nat) (fs0 : Fs (Option (PdfDoc α)))
    (hpdf : pdfField.truthy = true)
    (h1 : 1 ≤ k) (h2 : k ≤ doc.pages.length) :
    (splitPoppler pdfField (.num k) t
      ⟨some doc, .ok (some doc.pages.length)⟩ fs0).1 =
      ⟨200, .single k doc.pages.length
        ⟨[doc.pages.get ⟨k - 1, by omega⟩]⟩,
        [.fileWrite (inputName t), .engine "pdfinfo", .engine "pdfseparate",
         .fileWrite (sepPageName t k), .fileUnlink (inputName t),
         .fileUnlink (sepPageName t k)]⟩ := by
  have hpg : (JsVal.num (k : Int)).truthy = true := by
    simp only [JsVal.truthy, bne_iff_ne, ne_eq, decide_eq_true_eq]
    omega
  have hc : (nanLt (some (k : Int)) 1 ||
      nanGt (some (k : Int)) ((doc.pages.length : Nat) : Int)) = false := by
    simp only [nanLt, nanGt, Bool.or_eq_false_iff, decide_eq_false_iff_not]
    omega
  have hcond : 1 ≤ (k : Int) ∧ (k : Int).toNat ≤ doc.pages.length := by
    omega
  have hidx : (k : Int).toNat = k := by omega
  simp [splitPoppler, hpdf, hpg, jsParseInt, hc, pdfseparatePage, hcond,
    hidx, h2]

/-- C6: for a valid N-page document and a supplied page k with
1 ≤ k ≤ N, both split variants answer 200 with page = k,
totalPages = N, and a base64 payload decoding to the one-page document
holding exactly source page k. -/
theorem claim6_valid_single_page {α : Type} (pdfField : JsVal)
    (doc : PdfDoc α) (k t : Nat) (fs0 : Fs (Option (PdfDoc α)))
    (hpdf : pdfField.truthy = true)
    (h1 : 1 ≤ k) (h2 : k ≤ doc.pages.length) :
    splitPdfLib pdfField (.num k) (.ok doc) =
      ⟨200, .single k doc.pages.length
        ⟨[doc.pages.get ⟨k - 1, by omega⟩]⟩,
        [.engine "PDFDocument.load", .engine "copyPages"]⟩ ∧
    (splitPoppler pdfField (.num k) t
      ⟨some doc, .ok (some doc.pages.length)⟩ fs0).1 =
      ⟨200, .single k doc.pages.length
        ⟨[doc.pages.get ⟨k - 1, by omega⟩]⟩,
        [.fileWrite (inputName t), .engine "pdfinfo", .engine "pdfseparate",
         .fileWrite (sepPageName t k), .fileUnlink (inputName t),
         .fileUnlink (sepPageName t k)]⟩ :=
  ⟨splitPdfLib_single_page pdfField doc k hpdf h1 h2,
   splitPoppler_single_page pdfField doc k t fs0 hpdf h1 h2⟩

/-- C6 witness: page 2 of a 3-page document. -/
theorem claim6_valid_single_page_wit :
    (JsVal.str "cGRm").truthy = true ∧ 1 ≤ 2 ∧
    2 ≤ ([10, 20, 30] : List Nat).length ∧
    splitPdfLib (α := Nat) (.str "cGRm") (.num 2) (.ok ⟨[10, 20, 30]⟩) =
      ⟨200, .single 2 3 ⟨[20]⟩,
        [.engine "PDFDocument.load", .engine "copyPages"]⟩ :=
  ⟨by decide, by decide, by decide,
   (claim6_valid_single_page (α := Nat) (.str "cGRm") ⟨[10, 20, 30]⟩ 2 100
     [] (by decide) (by decide) (by decide)).1⟩

/-- C5: splitting a valid N-page document with no page field answers 200
with count = N and a pages array of exactly N entries whose page values
are 1..N ascending, the entry at position i holding the one-page
document of source page i + 1 — in the pdf-lib variant and in the
poppler variant (whose pdfinfo probe reports the true page count and
whose pages array is reassembled from the pdfseparate output files). -/
theorem claim5_split_all {α : Type} (pdfField : JsVal) (doc : PdfDoc α)
    (t : Nat) (hpdf : pdfField.truthy = true) :
    ((splitPdfLib pdfField .undef (.ok doc)).status = 200 ∧
    ∃ l, (splitPdfLib pdfField .undef (.ok doc)).body =
        .all doc.pages.length l ∧
      l.map Prod.fst = List.range' 1 doc.pages.length ∧
      l.map Prod.snd = doc.pages.map (fun p => (⟨[p]⟩ : PdfDoc α))) ∧
    ((splitPoppler pdfField .undef t
        ⟨some doc, .ok (some doc.pages.length)⟩ []).1.status = 200 ∧
    ∃ l, (splitPoppler pdfField .undef t
        ⟨some doc, .ok (some doc.pages.length)⟩ []).1.body =
        .all doc.pages.length l ∧
      l.map Prod.fst = List.range' 1 doc.pages.length ∧
      l.map Prod.snd = doc.pages.map (fun p => (⟨[p]⟩ : PdfDoc α))) := by
  have hu : JsVal.undef.truthy = false := rfl
  have hfst : (doc.pages.enum.map
      (fun p => (p.1 + 1, (⟨[p.2]⟩ : PdfDoc α)))).map Prod.fst =
      List.range' 1 doc.pages.length := by
    apply List.ext_getElem
    · simp
    · intro i hi1 hi2
      simp only [List.getElem_map, List.getElem_enum, List.getElem_range']
      omega
  have hsnd : (doc.pages.enum.map
      (fun p => (p.1 + 1, (⟨[p.2]⟩ : PdfDoc α)))).map Prod.snd =
      doc.pages.map (fun p => (⟨[p]⟩ : PdfDoc α)) := by
    apply List.ext_getElem
    · simp
    · intro i hi1 hi2
      simp only [List.getElem_map, List.getElem_enum]
  obtain ⟨hps, hpb⟩ := splitPoppler_split_all pdfField doc t hpdf
  exact ⟨⟨by simp [splitPdfLib, hpdf, hu],
      ⟨doc.pages.enum.map (fun p => (p.1 + 1, ⟨[p.2]⟩)),
        by simp [splitPdfLib, hpdf, hu], hfst, hsnd⟩⟩,
    hps, ⟨doc.pages.enum.map (fun p => (p.1 + 1, ⟨[p.2]⟩)),
      hpb, hfst, hsnd⟩⟩

/-- C5 witness: a 2-page document through both variants. -/
theorem claim5_split_all_wit :
    (JsVal.str "cGRm").truthy = true ∧
    (splitPdfLib (α := Nat) (.str "cGRm") .undef
      (.ok ⟨[10, 20]⟩)).status = 200 ∧
    (splitPoppler (α := Nat) (.str "cGRm") .undef 100
      ⟨some ⟨[10, 20]⟩, .ok (some 2)⟩ []).1.status = 200 :=
  ⟨by decide,
   (claim5_split_all (α := Nat) (.str "cGRm") ⟨[10, 20]⟩ 100
     (by decide)).1.1,
   (claim5_split_all (α := Nat) (.str "cGRm") ⟨[10, 20]⟩ 100
     (by decide)).2.1⟩

/-- C7: a failed form-flattening attempt leaves the request exactly as
if flattening had been skipped — rasterization runs on the original
unflattened bytes — in the pdftoppm variant and the pdf2img variant
alike, and the request is not aborted: when the conversion of the
original buffer succeeds the response status is 200. -/
theorem claim7_flatten_best_effort {β γ : Type} [Inhabited γ]
    (pdfField : JsVal) (pagesField : Option (List Int)) (b0 : β)
    (e : String) (t catchNow : Nat) (docPages : Option Nat)
    (render : β → Int → γ) (fs0 : Fs (TmpFile β γ))
    (conv : β → Except String (List γ)) :
    convertPdftoppm pdfField pagesField b0 (.failed e) t catchNow docPages
      render fs0 =
      convertPdftoppm pdfField pagesField b0 .noFields t catchNow docPages
        render fs0 ∧
    convertPdf2imgFlat pdfField pagesField b0 (.failed e) conv =
      convertPdf2imgFlat pdfField pagesField b0 .noFields conv ∧
    (∀ imgs, conv b0 = .ok imgs → pdfField.truthy = true →
      (convertPdf2imgFlat pdfField pagesField b0 (.failed e) conv).status =
        200) := by
  refine ⟨rfl, rfl, ?_⟩
  intro imgs hok hpdf
  simp [convertPdf2imgFlat, flattenBuffer, hpdf, hok]

/-- C7 witness: a flattening failure with a succeeding conversion. -/
theorem claim7_flatten_best_effort_wit :
    (fun _ => Except.ok [5] : Nat → Except String (List Nat)) 0 =
      .ok [5] ∧
    (JsVal.str "cGRm").truthy = true ∧
    (convertPdf2imgFlat (β := Nat) (γ := Nat) (.str "cGRm") none 0
      (.failed "boom") (fun _ => .ok [5])).status = 200 :=
  ⟨rfl, by decide,
   (claim7_flatten_best_effort (β := Nat) (γ := Nat) (.str "cGRm") none 0
     "boom" 100 101 none (fun _ _ => 0) []
     (fun _ => .ok [5])).2.2 [5] rfl (by decide)⟩

/-- C10: in every 200 response of the convert-to-images variants the
count field equals the length of the images array, whatever the backend
produced — count is defined by the result list, not by the source page
count or the number of requested pages. -/
theorem claim10_count_matches_images {β γ : Type} [Inhabited γ]
    (pdfField : JsVal) (pagesField : Option (List Int))
    (convertRes : Except String (List γ)) (b0 : β) (flat : Flatten β)
    (t catchNow : Nat) (docPages : Option Nat) (render : β → Int → γ)
    (fs0 : Fs (TmpFile β γ)) (maxSize : Nat) (size : γ → Nat)
    (magick : γ → Nat → γ) :
    (∀ c imgs, (convertPdf2img pdfField pagesField convertRes).body =
      .success c imgs → c = imgs.length) ∧
    (∀ c imgs, (convertPdftoppm pdfField pagesField b0 flat t catchNow
      docPages render fs0).1.body = .success c imgs → c = imgs.length) ∧
    (∀ c imgs, (convertJpeg pdfField pagesField maxSize b0 t docPages
      render size magick fs0).1.body = .success c imgs →
      c = imgs.length) := by
  refine ⟨?_, ?_, ?_⟩ <;> intro c imgs h
  · cases hpt : pdfField.truthy with
    | false => simp [convertPdf2img, hpt] at h
    | true =>
      cases convertRes with
      | error e => simp [convertPdf2img, hpt] at h
      | ok outs =>
        simp [convertPdf2img, hpt, ConvBody.success.injEq] at h
        obtain ⟨h1, h2⟩ := h
        subst h1; subst h2; rfl
  · cases hpt : pdfField.truthy with
    | false => simp [convertPdftoppm, hpt] at h
    | true =>
      simp only [convertPdftoppm, hpt, Bool.not_true, Bool.false_eq_true,
        if_false] at h
      cases hr : (ppmRun t ".png" pagesField docPages
          (render (flattenBuffer b0 flat))
          (fsWrite fs0 (inputName t)
            (TmpFile.pdfBuf (flattenBuffer b0 flat)))).2 with
      | false => rw [hr] at h; simp at h
      | true =>
        rw [hr] at h
        simp only [if_true, ConvBody.success.injEq] at h
        obtain ⟨h1, h2⟩ := h
        subst h1; subst h2; rfl
  · cases hpt : pdfField.truthy with
    | false => simp [convertJpeg, hpt] at h
    | true =>
      simp only [convertJpeg, hpt, Bool.not_true, Bool.false_eq_true,
        if_false] at h
      cases hr : (ppmRun t ".jpg" pagesField docPages (render b0)
          (fsWrite fs0 (inputName t) (TmpFile.pdfBuf b0))).2 with
      | false => rw [hr] at h; simp at h
      | true =>
        rw [hr] at h
        simp only [if_true, ConvBody.success.injEq] at h
        obtain ⟨h1, h2⟩ := h
        subst h1; subst h2; rfl

/-- C10 witness: a pdf2img conversion that returned two images. -/
theorem claim10_count_matches_images_wit :
    (convertPdf2img (γ := Nat) (.str "cGRm") (some [2, 4])
      (.ok [9, 8])).body = .success 2 [⟨2, 9⟩, ⟨4, 8⟩] ∧
    2 = [(⟨2, 9⟩ : ImgEntry Nat), ⟨4, 8⟩].length :=
  ⟨by decide,
   (claim10_count_matches_images (β := Nat) (γ := Nat) (.str "cGRm")
     (some [2, 4]) (.ok [9, 8]) 0 .noFields 100 101 none (fun _ _ => 0) []
     5 (fun g => g) (fun g _ => g)).1 2 [⟨2, 9⟩, ⟨4, 8⟩] (by decide)⟩

/-- C2 counterexample: in the pdftoppm variant, a request with
pages = [2, 10] against a 10-page document yields the images array in
lexicographic file-name order — page 10 first, then page 2 — not in the
requested positional order [2, 10]. -/
theorem claim2_requested_pages_cx :
    ((convertPdftoppm (β := Nat) (γ := Nat) (.str "cGRm") (some [2, 10]) 0
      .noFields 100 101 (some 10) (fun _ p => p.toNat * 7) []).1.body) =
      .success 2 [⟨10, 70⟩, ⟨2, 14⟩] ∧
    ([(⟨10, 70⟩ : ImgEntry Nat), ⟨2, 14⟩].map (fun i => i.page) =
      [10, 2]) ∧
    ¬ ([(10 : Int), 2] = [2, 10]) := by
  exact ⟨by decide, by decide, by decide⟩

/-- Helper: in the pdf2img mapping, when the backend returned one image
per requested page and every requested page number is nonzero, the page
attached at each position is the page requested at that position. -/
theorem pdf2imgEntries_map_page {γ : Type} (ps : List Int) (imgs : List γ)
    (hlen : imgs.length = ps.length) (hpos : ∀ p ∈ ps, p ≠ 0) :
    (pdf2imgEntries (some ps) imgs).map (fun i => i.page) = ps := by
  apply List.ext_getElem
  · simpa [pdf2imgEntries] using hlen
  · intro i hi1 hi2
    simp only [pdf2imgEntries, List.getElem_map, List.getElem_enum]
    have hne : ps[i] ≠ 0 := hpos _ (List.getElem_mem hi2)
    simp [pdf2imgPageNum, List.get?_eq_getElem?, List.getElem?_eq_getElem,
      hi2, hne]

/-- C2 as amended: the pdf2img variants associate each image with the
page number requested at its position (whenever the backend returns one
image per requested page and the requested numbers are nonzero), and the
pdftoppm variants order the images by lexicographic file-name sort and
label them with the number parsed from the file name — which agrees with
the requested order for pages = [2, 4] on a 5-page document (and
whenever the requested numbers sort lexicographically like numbers), but
not in general. -/
theorem claim2_requested_pages_amended {γ : Type} (pdfField : JsVal)
    (hpdf : pdfField.truthy = true) (ps : List Int) (hne : ps ≠ [])
    (hpos : ∀ p ∈ ps, p ≠ 0) (imgs : List γ)
    (hlen : imgs.length = ps.length) (render : Int → Nat) :
    (convertPdf2img pdfField (some ps) (.ok imgs)).status = 200 ∧
    (convertPdf2img pdfField (some ps) (.ok imgs)).body =
      .success (pdf2imgEntries (some ps) imgs).length
        (pdf2imgEntries (some ps) imgs) ∧
    (pdf2imgEntries (some ps) imgs).map (fun i => i.page) = ps ∧
    ((convertPdftoppm (β := Nat) (γ := Nat) (.str "cGRm") (some [2, 4]) 0
      .noFields 100 101 (some 5) (fun _ p => render p) []).1.body =
      .success 2 [⟨2, render 2⟩, ⟨4, render 4⟩]) := by
  refine ⟨by simp [convertPdf2img, hpdf], by simp [convertPdf2img, hpdf],
    pdf2imgEntries_map_page ps imgs hlen hpos, rfl⟩

/-- C2 witness: the amended theorem at pages = [2, 4] with two returned
images. -/
theorem claim2_requested_pages_amended_wit :
    ([9, 8] : List Nat).length = ([2, 4] : List Int).length ∧
    (pdf2imgEntries (some [2, 4]) ([9, 8] : List Nat)).map
      (fun i => i.page) = [2, 4] :=
  ⟨by decide,
   (claim2_requested_pages_amended (γ := Nat) (.str "cGRm") (by decide)
     [2, 4] (by decide) (by decide) [9, 8] (by decide)
     (fun p => p.toNat)).2.2.1⟩

/-- Helper: the natural floor of a real square root is the natural
square root of the natural floor. -/
theorem natFloor_real_sqrt (x : ℝ) (hx : 0 ≤ x) :
    ⌊Real.sqrt x⌋₊ = Nat.sqrt ⌊x⌋₊ := by
  have key : ∀ n : ℕ, n ≤ ⌊Real.sqrt x⌋₊ ↔ n ≤ Nat.sqrt ⌊x⌋₊ := by
    intro n
    rw [Nat.le_floor_iff (Real.sqrt_nonneg x),
      Real.le_sqrt (Nat.cast_nonneg n) hx, Nat.le_sqrt,
      show ((n : ℝ) ^ 2) = (((n * n : ℕ) : ℕ) : ℝ) by push_cast; ring,
      ← Nat.le_floor_iff hx]
  exact le_antisymm ((key _).mp le_rfl) ((key _).mpr le_rfl)

/-- Helper: the whole-percent scale factor of the resize branch computed
by scalePercent is exactly Math.floor(Math.sqrt(maxBytes / actual) *
0.9 * 100). -/
theorem scalePercent_eq_floor (m a : ℕ) (ha : 0 < a) :
    scalePercent m a =
      ⌊Real.sqrt ((m : ℝ) / (a : ℝ)) * 0.9 * 100⌋₊ := by
  have ha' : (0 : ℝ) < (a : ℝ) := by exact_mod_cast ha
  have hdiv : (0 : ℝ) ≤ (m : ℝ) / (a : ℝ) := by positivity
  have h90 : Real.sqrt 8100 = 90 := by
    rw [show (8100 : ℝ) = 90 ^ 2 by norm_num,
      Real.sqrt_sq (by norm_num : (0 : ℝ) ≤ 90)]
  have h1 : Real.sqrt ((m : ℝ) / (a : ℝ)) * 0.9 * 100 =
      Real.sqrt (((8100 * m : ℕ) : ℝ) / (a : ℝ)) := by
    have hmul : ((8100 * m : ℕ) : ℝ) / (a : ℝ) =
        ((m : ℝ) / (a : ℝ)) * 8100 := by
      push_cast; ring
    rw [hmul, Real.sqrt_mul hdiv, h90]; ring
  rw [h1, natFloor_real_sqrt _ (by positivity), Nat.floor_div_nat,
    Nat.floor_natCast]
  rfl

/-- C8: in the jpeg variant, the ImageMagick downscale runs on a
rendered image exactly when its byte size exceeds maxSize * 1024 * 1024
bytes; when it runs, the image left untouched otherwise, the whole-
percent scale factor passed to convert -resize is
floor(sqrt(maxSizeBytes / actualBytes) * 0.9 * 100). -/
theorem claim8_resize_policy {γ : Type} (maxSize : Nat) (size : γ → Nat)
    (magick : γ → Nat → γ) (g : γ) (hsz : 0 < size g) :
    ((processImage (maxSizeBytesOf maxSize) size magick g).2 =
        [.engine "imagemagick-convert"] ↔
      maxSize * 1024 * 1024 < size g) ∧
    (size g ≤ maxSize * 1024 * 1024 →
      processImage (maxSizeBytesOf maxSize) size magick g = (g, [])) ∧
    (maxSize * 1024 * 1024 < size g →
      (processImage (maxSizeBytesOf maxSize) size magick g).1 =
        magick g
          ⌊Real.sqrt (((maxSize * 1024 * 1024 : ℕ) : ℝ) /
            ((size g : ℕ) : ℝ)) * 0.9 * 100⌋₊) := by
  by_cases hgt : maxSize * 1024 * 1024 < size g
  · refine ⟨by simp [processImage, maxSizeBytesOf, hgt],
      fun hle => absurd hgt (by omega), fun _ => ?_⟩
    simp only [processImage, maxSizeBytesOf, hgt, if_pos]
    rw [scalePercent_eq_floor _ _ hsz]
  · refine ⟨by simp [processImage, maxSizeBytesOf, hgt],
      fun _ => by simp [processImage, maxSizeBytesOf, hgt],
      fun h => absurd h hgt⟩

/-- C8 witness: a 6 MiB image against the default 5 MB cap is resized. -/
theorem claim8_resize_policy_wit :
    (0 < 6291456) ∧
    (processImage (maxSizeBytesOf 5) (fun g => g)
      (fun g p => g * p / 100) 6291456).2 = [.engine "imagemagick-convert"] :=
  ⟨by decide,
   (claim8_resize_policy 5 (fun g => g) (fun g p => g * p / 100) 6291456
     (by decide)).1.mpr (by decide)⟩

example :
    (splitPdfLib (α := Nat) (.str "cGRm") (.str "abc")
      (.ok ⟨[10, 20]⟩)).status = 500 := by decide

example :
    (splitPdfLib (α := Nat) (.str "cGRm") (.num 0)
      (.ok ⟨[10, 20]⟩)).status = 200 := by decide

example :
    (splitPdfLib (α := Nat) (.str "cGRm") (.num 3)
      (.ok ⟨[10, 20]⟩)).body = .invalidPage 2 := by decide

example :
    (splitPdfLib (α := Nat) (.str "cGRm") (.num 2)
      (.ok ⟨[10, 20]⟩)).body = .single 2 2 ⟨[20]⟩ := by decide

example :
    (splitPdfLib (α := Nat) (.str "cGRm") .undef
      (.ok ⟨[10, 20]⟩)).body = .all 2 [(1, ⟨[10]⟩), (2, ⟨[20]⟩)] := by
  decide

end PdfSplitter
